import Mathlib

/-!
Verification of the chunked transfer protocol of cloud-gram-store.

The definitions below are a shallow embedding of `src/services/telegram.js`
and `src/services/file.js`.  Byte sequences are modelled as `List Nat`,
remote Telegram file ids as natural numbers indexing into a store list, and
the D1 metadata database as lists of rows (schema from `schema.sql`).  The
network layer is modelled by an oracle `ok : Nat → Bool` saying whether the
chunk upload with a given loop index succeeds, and by a `Remote` state that
records the stored objects and every delete attempt made against the
backend (the body of `deleteTelegramFileById` is commented out in the
source, so a delete attempt has no remote effect; we still record that the
method was invoked so that cleanup behaviour is observable).
-/

/-- Byte sequences (contents of a `Uint8Array`) are modelled as lists of
naturals. -/
abbrev Bytes := List Nat

/-- Chunk descriptor arising from the upload loop of
`TelegramService.uploadFile`: for loop index `i` the code computes
`startOffset = i * chunkSize` and
`endOffset = Math.min(startOffset + chunkSize, fileData.length)` and slices
`fileData.slice(startOffset, endOffset)`. -/
structure ChunkDesc where
  index : Nat
  offset : Nat
  length : Nat
deriving Repr, DecidableEq

/-- Number of chunks computed by `TelegramService.uploadFile`:
`Math.ceil(fileData.length / this.chunkSize)`, which for a positive integer
`chunkSize` equals `(totalSize + chunkSize - 1) / chunkSize` in integer
arithmetic. -/
def numChunks (chunkSize totalSize : Nat) : Nat :=
  (totalSize + chunkSize - 1) / chunkSize

/-- End offset of chunk `i`: `Math.min(startOffset + chunkSize, fileData.length)`. -/
def chunkEnd (chunkSize totalSize i : Nat) : Nat :=
  min (i * chunkSize + chunkSize) totalSize

/-- Descriptor of chunk `i` of the plan implicit in the loop of
`TelegramService.uploadFile` (src/services/telegram.js lines 40-45). -/
def planChunk (chunkSize totalSize i : Nat) : ChunkDesc :=
  ⟨i, i * chunkSize, chunkEnd chunkSize totalSize i - i * chunkSize⟩

/-- The chunk plan of `TelegramService.uploadFile`: one descriptor per loop
index `0 ≤ i < numChunks`. -/
def uploadPlan (chunkSize totalSize : Nat) : List ChunkDesc :=
  (List.range (numChunks chunkSize totalSize)).map (planChunk chunkSize totalSize)

/-- JavaScript `data.slice(s, e)` on a `Uint8Array` (for `s ≤ e ≤ data.length`). -/
def jsSlice (l : Bytes) (s e : Nat) : Bytes :=
  (l.drop s).take (e - s)

/-- Bytes of chunk `i` as sliced by the loop of `TelegramService.uploadFile`. -/
def chunkBytes (chunkSize : Nat) (data : Bytes) (i : Nat) : Bytes :=
  jsSlice data (i * chunkSize) (min (i * chunkSize + chunkSize) data.length)

/-- Entry of the `messageIds` array built by `TelegramService.uploadFile`:
`index`, the Telegram file id returned by `uploadChunk`, and the chunk's
size. -/
structure MsgRec where
  index : Nat
  telegramFileId : Nat
  size : Nat
deriving Repr, DecidableEq

/-- State of the remote Telegram backend: the list of stored objects
(handles are positions in this list) together with the list of handles for
which `deleteTelegramFileById` was invoked.  The body of that method is
commented out in the source, so an attempt has no effect on `store`. -/
structure Remote where
  store : List Bytes
  deleteAttempts : List Nat
deriving Repr, DecidableEq

/-- Storing one object remotely (`TelegramService.uploadChunk` on success):
the object is appended and its handle returned. -/
def remotePut (r : Remote) (b : Bytes) : Remote × Nat :=
  (⟨r.store ++ [b], r.deleteAttempts⟩, r.store.length)

/-- Recording of a `TelegramService.deleteTelegramFileById` call.  The
source's request body is entirely commented out, so nothing is removed from
the store; the attempt itself is recorded. -/
def deleteTelegramFileById (r : Remote) (h : Nat) : Remote :=
  ⟨r.store, r.deleteAttempts ++ [h]⟩

/-- Errors surfaced by `TelegramService.uploadFile`. -/
inductive TgError where
  | sizeLimitExceeded : TgError
  | chunkUploadFailed : Nat → TgError
deriving Repr, DecidableEq

/-- The `MAX_FILE_SIZE` constant of `TelegramService.uploadFile` (100 MB). -/
def MAX_FILE_SIZE : Nat := 100 * 1024 * 1024

/-- The chunk loop of `TelegramService.uploadFile` over the remaining loop
indices: slice the chunk, upload it (oracle `ok` decides whether the
`uploadChunk` call succeeds), push its record, and abort with
`chunkUploadFailed` on the first failure (the catch block rethrows; no
delete of already uploaded chunks is attempted). -/
def tgUploadLoop (ok : Nat → Bool) (chunkSize : Nat) (data : Bytes) :
    List Nat → Remote → List MsgRec → Except TgError (List MsgRec) × Remote
  | [], r, acc => (.ok acc, r)
  | i :: rest, r, acc =>
    if ok i then
      tgUploadLoop ok chunkSize data rest (remotePut r (chunkBytes chunkSize data i)).1
        (acc ++ [⟨i, (remotePut r (chunkBytes chunkSize data i)).2,
                 (chunkBytes chunkSize data i).length⟩])
    else (.error (.chunkUploadFailed i), r)

/-- Embedding of `TelegramService.uploadFile` (src/services/telegram.js):
reject files above `MAX_FILE_SIZE`, then upload the `numChunks` chunks
sequentially, returning the `messageIds` records and the new remote state. -/
def TelegramService.uploadFile (ok : Nat → Bool) (r : Remote) (chunkSize : Nat)
    (data : Bytes) : Except TgError (List MsgRec) × Remote :=
  if MAX_FILE_SIZE < data.length then (.error .sizeLimitExceeded, r)
  else tgUploadLoop ok chunkSize data (List.range (numChunks chunkSize data.length)) r []

/-- Row of the `file_chunks` table (schema.sql); the autoincrement `id` and
`created_at` columns are omitted as no claim mentions them, and the textual
`telegram_file_id` is modelled as a numeric remote handle. -/
structure FileChunkRow where
  file_id : Nat
  chunk_index : Nat
  telegram_file_id : Nat
  size : Nat
deriving Repr, DecidableEq

/-- Row of the `files` table (schema.sql), timestamps omitted. -/
structure FileRec where
  id : Nat
  name : String
  folder_id : Option Nat
  size : Nat
  mime_type : String
deriving Repr, DecidableEq

/-- Row of the `temp_chunks` table (schema.sql), `id` and `created_at`
omitted. -/
structure TempChunkRow where
  upload_id : String
  chunk_index : Nat
  telegram_file_id : Nat
  size : Nat
  original_file_name : String
  original_file_size : Nat
  folder_id : Option Nat
deriving Repr, DecidableEq

/-- The metadata database (Cloudflare D1), as row lists plus the next
autoincrement file id. -/
structure DB where
  files : List FileRec
  fileChunks : List FileChunkRow
  tempChunks : List TempChunkRow
  nextFileId : Nat
deriving Repr, DecidableEq

/-- Modelled from the spec: `DatabaseService.createFile` (services/database.js
is not part of the provided sources; the spec describes the metadata store as
plain CRUD over the `files` table).  Inserts a row with the next
autoincrement id and returns it. -/
def DatabaseService.createFile (db : DB) (name : String) (folderId : Option Nat)
    (size : Nat) (mime : String) : FileRec × DB :=
  (⟨db.nextFileId, name, folderId, size, mime⟩,
   ⟨db.files ++ [⟨db.nextFileId, name, folderId, size, mime⟩],
    db.fileChunks, db.tempChunks, db.nextFileId + 1⟩)

/-- Modelled from the spec: `DatabaseService.createFileChunk`, a plain insert
into `file_chunks`. -/
def DatabaseService.createFileChunk (db : DB) (fileId idx tgId size : Nat) : DB :=
  ⟨db.files, db.fileChunks ++ [⟨fileId, idx, tgId, size⟩], db.tempChunks, db.nextFileId⟩

/-- Modelled from the spec: `DatabaseService.getFileById`, a lookup in
`files`. -/
def DatabaseService.getFileById (db : DB) (fileId : Nat) : Option FileRec :=
  db.files.find? (fun f => f.id == fileId)

/-- Modelled from the spec: `DatabaseService.getFileChunks`, the rows of
`file_chunks` with the given `file_id`. -/
def DatabaseService.getFileChunks (db : DB) (fileId : Nat) : List FileChunkRow :=
  db.fileChunks.filter (fun row => row.file_id == fileId)

/-- Modelled from the spec: `DatabaseService.getTempChunks`, the rows of
`temp_chunks` with the given `upload_id`. -/
def DatabaseService.getTempChunks (db : DB) (uploadId : String) : List TempChunkRow :=
  db.tempChunks.filter (fun t => t.upload_id == uploadId)

/-- Modelled from the spec: `DatabaseService.deleteTempChunks`, deleting all
`temp_chunks` rows with the given `upload_id`. -/
def DatabaseService.deleteTempChunks (db : DB) (uploadId : String) : DB :=
  ⟨db.files, db.fileChunks, db.tempChunks.filter (fun t => t.upload_id != uploadId),
   db.nextFileId⟩

/-- Combined state of the metadata store and the remote backend. -/
structure SysState where
  db : DB
  remote : Remote
deriving Repr, DecidableEq

/-- Embedding of `FileService.uploadFile` (src/services/file.js): upload the
bytes to Telegram; on failure rethrow without touching the database; on
success create the `files` row (with the File object's size, i.e. the byte
length) and then one `file_chunks` row per uploaded chunk. -/
def FileService.uploadFile (ok : Nat → Bool) (st : SysState) (chunkSize : Nat)
    (data : Bytes) (name : String) (mime : String) (folderId : Option Nat) :
    Except TgError FileRec × SysState :=
  match TelegramService.uploadFile ok st.remote chunkSize data with
  | (.error e, r) => (.error e, ⟨st.db, r⟩)
  | (.ok recs, r) =>
    let fr := DatabaseService.createFile st.db name folderId data.length mime
    let db2 := recs.foldl
      (fun db m => DatabaseService.createFileChunk db fr.1.id m.index m.telegramFileId m.size)
      fr.2
    (.ok fr.1, ⟨db2, r⟩)

/-- Sorting step of `TelegramService.downloadFile`:
`chunks.sort((a, b) => a.chunk_index - b.chunk_index)`, i.e. sorting the
chunk rows by `chunk_index` ascending. -/
def sortChunks (chunks : List FileChunkRow) : List FileChunkRow :=
  List.insertionSort (fun a b => a.chunk_index ≤ b.chunk_index) chunks

/-- The sequential download loop of `TelegramService.downloadFile`: fetch
each chunk's bytes by its Telegram file id; any failed fetch aborts the
whole download. -/
def fetchAll (store : List Bytes) : List FileChunkRow → Option (List Bytes)
  | [] => some []
  | ch :: rest =>
    match store[ch.telegram_file_id]?, fetchAll store rest with
    | some b, some bs => some (b :: bs)
    | _, _ => none

/-- Embedding of `TelegramService.mergeChunks`: allocate the total size and
copy the chunk byte arrays one after another, i.e. concatenation. -/
def TelegramService.mergeChunks (chunkDataArray : List Bytes) : Bytes :=
  chunkDataArray.flatten

/-- Embedding of `TelegramService.downloadFile`: sort the chunk rows by
`chunk_index` ascending, download each sequentially, and merge. `none`
models the thrown error when any chunk fetch fails. -/
def TelegramService.downloadFile (store : List Bytes) (chunks : List FileChunkRow) :
    Option Bytes :=
  (fetchAll store (sortChunks chunks)).map TelegramService.mergeChunks

/-- Errors surfaced by `FileService.downloadFile`. -/
inductive DownloadError where
  | missingChunks : DownloadError
  | chunkFetchFailed : DownloadError
deriving Repr, DecidableEq

/-- Result object of `FileService.downloadFile`. -/
structure DownloadResult where
  data : Bytes
  name : String
  mimeType : String
  size : Nat
deriving Repr, DecidableEq

/-- Embedding of `FileService.downloadFile` (src/services/file.js): return
`null` (here `Except.ok none`) when no `files` row exists; throw
`missingChunks` ("未找到文件分片") when the file has no `file_chunks` rows;
otherwise download from Telegram and return data with metadata from the
`files` row. -/
def FileService.downloadFile (st : SysState) (fileId : Nat) :
    Except DownloadError (Option DownloadResult) :=
  match DatabaseService.getFileById st.db fileId with
  | none => .ok none
  | some f =>
    if (DatabaseService.getFileChunks st.db fileId).isEmpty then .error .missingChunks
    else
      match TelegramService.downloadFile st.remote.store
              (DatabaseService.getFileChunks st.db fileId) with
      | none => .error .chunkFetchFailed
      | some bytes => .ok (some ⟨bytes, f.name, f.mime_type, f.size⟩)

/-- Result of `FileService.cleanupFailedUpload`: the code returns
`success: true` with a `clearedChunks` count when rows were cleaned, and
`success: true` with no `clearedChunks` field at all (modelled `none`) when
there was nothing to clean. -/
structure CleanupResult where
  success : Bool
  clearedChunks : Option Nat
deriving Repr, DecidableEq

/-- Embedding of `FileService.cleanupFailedUpload` (src/services/file.js):
load the `temp_chunks` rows for the upload id; if none, return success
without a `clearedChunks` count; otherwise invoke
`deleteTelegramFileById` on each chunk's remote handle (recorded as delete
attempts) and delete the rows, reporting the number cleared. -/
def FileService.cleanupFailedUpload (st : SysState) (uploadId : String) :
    CleanupResult × SysState :=
  if (DatabaseService.getTempChunks st.db uploadId).isEmpty then
    (⟨true, none⟩, st)
  else
    (⟨true, some (DatabaseService.getTempChunks st.db uploadId).length⟩,
     ⟨DatabaseService.deleteTempChunks st.db uploadId,
      (DatabaseService.getTempChunks st.db uploadId).foldl
        (fun r t => deleteTelegramFileById r t.telegram_file_id) st.remote⟩)

/-- Errors surfaced by `FileService.mergeFileChunks`: either no staged
chunks were found ("未找到待合并的分片") or the staged count does not match
the caller-declared total ("分片数量不匹配", carrying expected and actual). -/
inductive MergeError where
  | noChunks : MergeError
  | countMismatch : Nat → Nat → MergeError
deriving Repr, DecidableEq

/-- Embedding of `FileService.mergeFileChunks` (src/services/file.js).  The
source reads only `chunks.length` from its `chunks` argument, embedded here
as `declared`.  Validation: error when no `temp_chunks` rows exist for the
upload id, or when their count differs from `declared`; on either error the
catch block invokes `cleanupFailedUpload` before rethrowing.  On success:
create the `files` row, promote every staged row into `file_chunks`
(preserving index, handle and size), then delete the staged rows. -/
def FileService.mergeFileChunks (st : SysState) (uploadId : String) (fileName : String)
    (fileSize : Nat) (mime : String) (folderId : Option Nat) (declared : Nat) :
    Except MergeError FileRec × SysState :=
  if (DatabaseService.getTempChunks st.db uploadId).isEmpty then
    (.error .noChunks, (FileService.cleanupFailedUpload st uploadId).2)
  else if (DatabaseService.getTempChunks st.db uploadId).length ≠ declared then
    (.error (.countMismatch declared (DatabaseService.getTempChunks st.db uploadId).length),
     (FileService.cleanupFailedUpload st uploadId).2)
  else
    let fr := DatabaseService.createFile st.db fileName folderId fileSize mime
    let db2 := (DatabaseService.getTempChunks st.db uploadId).foldl
      (fun db t =>
        DatabaseService.createFileChunk db fr.1.id t.chunk_index t.telegram_file_id t.size)
      fr.2
    (.ok fr.1, ⟨DatabaseService.deleteTempChunks db2 uploadId, st.remote⟩)

/-- Well-formedness of the metadata store: every existing row id is below
the next autoincrement id (guaranteed by the database engine). -/
def DBWF (db : DB) : Prop :=
  (∀ r ∈ db.fileChunks, r.file_id < db.nextFileId) ∧
  (∀ f ∈ db.files, f.id < db.nextFileId)

/-- The committed-chunk invariant of the spec for a file record: the
`chunk_index` values of its `file_chunks` rows are exactly `0 … N-1` (as a
multiset) and the chunk sizes sum to the file's declared size. -/
def chunkInvariant (db : DB) (f : FileRec) : Prop :=
  ((DatabaseService.getFileChunks db f.id).map (fun r => r.chunk_index)).Perm
      (List.range (DatabaseService.getFileChunks db f.id).length) ∧
  ((DatabaseService.getFileChunks db f.id).map (fun r => r.size)).sum = f.size

instance : DecidablePred (fun p : DB × FileRec => chunkInvariant p.1 p.2) := by
  intro p
  unfold chunkInvariant
  infer_instance

instance (db : DB) (f : FileRec) : Decidable (chunkInvariant db f) := by
  unfold chunkInvariant
  infer_instance

instance (db : DB) : Decidable (DBWF db) := by
  unfold DBWF
  infer_instance

instance {ε α : Type} [DecidableEq ε] [DecidableEq α] : DecidableEq (Except ε α) :=
  fun a b =>
    match a, b with
    | .error e1, .error e2 =>
      match decEq e1 e2 with
      | isTrue h => isTrue (by rw [h])
      | isFalse h => isFalse (fun hh => h (Except.error.inj hh))
    | .error _, .ok _ => isFalse (fun hh => Except.noConfusion hh)
    | .ok _, .error _ => isFalse (fun hh => Except.noConfusion hh)
    | .ok a1, .ok a2 =>
      match decEq a1 a2 with
      | isTrue h => isTrue (by rw [h])
      | isFalse h => isFalse (fun hh => h (Except.ok.inj hh))

/-- The plan covers the whole file: `numChunks` times the chunk size is at
least the total size. -/
theorem numChunks_mul_ge (c n : Nat) (hc : 0 < c) : n ≤ numChunks c n * c := by
  unfold numChunks
  have h1 := Nat.div_add_mod (n + c - 1) c
  have h2 : (n + c - 1) % c < c := Nat.mod_lt _ hc
  rw [Nat.mul_comm]
  omega

/-- Every chunk index of the plan starts strictly inside the file. -/
theorem lt_of_lt_numChunks (c n i : Nat) (hc : 0 < c) (h : i < numChunks c n) :
    i * c < n := by
  unfold numChunks at h
  have h1 : (i + 1) * c ≤ n + c - 1 :=
    (Nat.le_div_iff_mul_le hc).mp (Nat.succ_le_of_lt h)
  rw [Nat.succ_mul] at h1
  omega

/-- A nonempty file has at least one chunk. -/
theorem numChunks_pos (c n : Nat) (hc : 0 < c) (hn : 0 < n) : 0 < numChunks c n := by
  unfold numChunks
  have h1 : 1 * c ≤ n + c - 1 := by omega
  exact (Nat.le_div_iff_mul_le hc).mpr h1

/-- Length of chunk `i` written as a difference of the running minimum
`min (i * c) n`. -/
theorem planChunk_length_eq (c n i : Nat) :
    (planChunk c n i).length = min ((i + 1) * c) n - min (i * c) n := by
  have h : i * c ≤ (i + 1) * c := Nat.mul_le_mul_right _ (by omega)
  simp only [planChunk, chunkEnd, Nat.succ_mul]
  omega

/-- Telescoping sum over `List.range` for a monotone `Nat`-valued function. -/
theorem sum_range_map_sub (g : Nat → Nat) (mono : ∀ i, g i ≤ g (i + 1)) :
    ∀ k, ((List.range k).map (fun i => g (i + 1) - g i)).sum = g k - g 0 := by
  intro k
  induction k with
  | zero => simp
  | succ k ih =>
    have h0 : g 0 ≤ g k := by
      clear ih
      induction k with
      | zero => exact Nat.le_refl _
      | succ k ih2 => exact Nat.le_trans ih2 (mono k)
    rw [List.range_succ, List.map_append, List.sum_append, ih]
    have hk := mono k
    simp only [List.map_cons, List.map_nil, List.sum_cons, List.sum_nil]
    omega

/-- The chunk lengths of the plan sum to the total size. -/
theorem uploadPlan_sum (c n : Nat) (hc : 0 < c) :
    ((uploadPlan c n).map ChunkDesc.length).sum = n := by
  unfold uploadPlan
  rw [List.map_map]
  have heq : ∀ i ∈ List.range (numChunks c n),
      (ChunkDesc.length ∘ planChunk c n) i =
        (fun i => min ((i + 1) * c) n - min (i * c) n) i := by
    intro i _
    exact planChunk_length_eq c n i
  rw [List.map_congr_left heq]
  have mono : ∀ i, min (i * c) n ≤ min ((i + 1) * c) n := by
    intro i
    have h : i * c ≤ (i + 1) * c := Nat.mul_le_mul_right _ (by omega)
    omega
  have := sum_range_map_sub (fun i => min (i * c) n) mono (numChunks c n)
  simp only at this
  rw [this]
  have hge := numChunks_mul_ge c n hc
  omega

/-- The chunk indices of the plan are `0, 1, …, numChunks - 1`. -/
theorem uploadPlan_indices (c n : Nat) :
    (uploadPlan c n).map ChunkDesc.index = List.range (numChunks c n) := by
  unfold uploadPlan
  rw [List.map_map]
  have heq : ∀ i ∈ List.range (numChunks c n),
      (ChunkDesc.index ∘ planChunk c n) i = i := fun i _ => rfl
  rw [List.map_congr_left heq]
  exact List.map_id _

/-- The number of planned chunks. -/
theorem uploadPlan_length (c n : Nat) :
    (uploadPlan c n).length = numChunks c n := by
  unfold uploadPlan
  rw [List.length_map, List.length_range]

/-- Every planned chunk is at most `chunkSize` long and ends within the
file. -/
theorem uploadPlan_bounds (c n : Nat) (hc : 0 < c) :
    ∀ ch ∈ uploadPlan c n, ch.length ≤ c ∧ ch.offset + ch.length ≤ n := by
  intro ch hch
  unfold uploadPlan at hch
  rw [List.mem_map] at hch
  obtain ⟨i, hi, rfl⟩ := hch
  rw [List.mem_range] at hi
  have hlt := lt_of_lt_numChunks c n i hc hi
  simp only [planChunk, chunkEnd]
  omega

/-- Closed form of `numChunks` for a nonempty file: `n / c` when `c`
divides `n`, else `n / c + 1`. -/
theorem numChunks_eq (c n : Nat) (hc : 0 < c) (hn : 0 < n) :
    numChunks c n = if n % c = 0 then n / c else n / c + 1 := by
  have hdm := Nat.div_add_mod n c
  have hmlt : n % c < c := Nat.mod_lt _ hc
  unfold numChunks
  by_cases h0 : n % c = 0
  · have he : n + c - 1 = c * (n / c) + (c - 1) := by omega
    have h2 : (c * (n / c) + (c - 1)) / c = n / c + (c - 1) / c :=
      Nat.mul_add_div hc _ _
    have h3 : (c - 1) / c = 0 := Nat.div_eq_of_lt (by omega)
    rw [if_pos h0, he]
    omega
  · have he : n + c - 1 = c * (n / c + 1) + (n % c - 1) := by
      have hx : c * (n / c + 1) = c * (n / c) + c := by ring
      omega
    have h2 : (c * (n / c + 1) + (n % c - 1)) / c = n / c + 1 + (n % c - 1) / c :=
      Nat.mul_add_div hc _ _
    have h3 : (n % c - 1) / c = 0 := Nat.div_eq_of_lt (by omega)
    rw [if_neg h0, he]
    omega

/-- Length of the final planned chunk: `n mod c` unless that is zero, in
which case `c`. -/
theorem planChunk_last_length (c n : Nat) (hc : 0 < c) (hn : 0 < n) :
    (planChunk c n (numChunks c n - 1)).length =
      if n % c = 0 then c else n % c := by
  have hdm := Nat.div_add_mod n c
  have hmlt : n % c < c := Nat.mod_lt _ hc
  have hk := numChunks_eq c n hc hn
  simp only [planChunk, chunkEnd]
  by_cases h0 : n % c = 0
  · rw [if_pos h0]
    rw [if_pos h0] at hk
    have hcn : c ≤ n := by
      by_contra hlt
      push_neg at hlt
      have hmm : n % c = n := Nat.mod_eq_of_lt hlt
      omega
    have hq : 0 < n / c := (Nat.one_le_div_iff hc).mpr hcn
    rw [hk]
    have he : (n / c - 1) * c = c * (n / c) - c := by
      rw [Nat.sub_mul, Nat.one_mul, Nat.mul_comm]
    have hge : c * 1 ≤ c * (n / c) := Nat.mul_le_mul_left c hq
    have hnc : (n / c - 1) * c + c = n := by omega
    rw [hnc, Nat.min_self]
    omega
  · rw [if_neg h0]
    rw [if_neg h0] at hk
    rw [hk]
    simp only [Nat.add_sub_cancel]
    have he : n / c * c = c * (n / c) := Nat.mul_comm _ _
    omega

/-- The last element of the plan for a nonempty file. -/
theorem uploadPlan_getLast (c n : Nat) (hc : 0 < c) (hn : 0 < n) :
    (uploadPlan c n).getLast? = some (planChunk c n (numChunks c n - 1)) := by
  unfold uploadPlan
  rw [List.getLast?_map, List.getLast?_range]
  have hk := numChunks_pos c n hc hn
  rw [if_neg (by omega)]
  rfl

/-- Concatenating the slices taken by the upload loop, starting at chunk
index `j`, recovers the tail of the file from offset `j * c`, provided the
remaining chunks cover the file. -/
theorem flatten_chunkBytes_drop (l : Bytes) (c : Nat) :
    ∀ (k j : Nat), l.length ≤ (j + k) * c →
      ((List.range' j k).map (chunkBytes c l)).flatten = l.drop (j * c) := by
  intro k
  induction k with
  | zero =>
    intro j hj
    simp only [List.range'_zero, List.map_nil, List.flatten_nil]
    rw [Nat.add_zero] at hj
    exact (List.drop_eq_nil_of_le hj).symm
  | succ k ih =>
    intro j hj
    rw [List.range'_succ, List.map_cons, List.flatten_cons]
    have hj2 : l.length ≤ (j + 1 + k) * c := by
      have hxx : j + 1 + k = j + (k + 1) := by omega
      rw [hxx]
      exact hj
    rw [ih (j + 1) hj2]
    have hdd : l.drop ((j + 1) * c) = (l.drop (j * c)).drop c := by
      rw [List.drop_drop]
      have hxx : j * c + c = (j + 1) * c := by
        rw [Nat.succ_mul]
      rw [hxx]
    rw [hdd]
    simp only [chunkBytes, jsSlice]
    by_cases hcase : j * c + c ≤ l.length
    · have ht : min (j * c + c) l.length - j * c = c := by omega
      rw [ht]
      exact List.take_append_drop c _
    · have ht : min (j * c + c) l.length - j * c = l.length - j * c := by omega
      rw [ht]
      have hlen : (l.drop (j * c)).length ≤ l.length - j * c := by
        rw [List.length_drop]
      rw [List.take_of_length_le hlen]
      have hnil : (l.drop (j * c)).drop c = [] := by
        apply List.drop_eq_nil_of_le
        rw [List.length_drop]
        omega
      rw [hnil, List.append_nil]

/-- Special case: the concatenation of all planned chunk slices is the whole
file. -/
theorem flatten_chunkBytes (l : Bytes) (c : Nat) (hc : 0 < c) :
    ((List.range (numChunks c l.length)).map (chunkBytes c l)).flatten = l := by
  rw [List.range_eq_range']
  rw [flatten_chunkBytes_drop l c (numChunks c l.length) 0
      (by rw [Nat.zero_add]; exact numChunks_mul_ge c l.length hc)]
  rw [Nat.zero_mul, List.drop_zero]

/-- Explicit form of the upload loop when every chunk upload succeeds:
starting from remote state `r`, chunk `i` is stored under handle
`r.store.length + (i - j)` and the records are appended in loop order. -/
theorem tgUploadLoop_allOk (c : Nat) (data : Bytes) :
    ∀ (k j : Nat) (r : Remote) (acc : List MsgRec),
    tgUploadLoop (fun _ => true) c data (List.range' j k) r acc =
      (.ok (acc ++ (List.range' j k).map
          (fun i => ⟨i, r.store.length + (i - j), (chunkBytes c data i).length⟩)),
       ⟨r.store ++ (List.range' j k).map (chunkBytes c data), r.deleteAttempts⟩) := by
  intro k
  induction k with
  | zero =>
    intro j r acc
    simp [tgUploadLoop, List.range'_zero]
  | succ k ih =>
    intro j r acc
    rw [List.range'_succ]
    simp only [tgUploadLoop, if_true, remotePut]
    rw [ih (j + 1)]
    simp only [List.map_cons, Prod.mk.injEq, Except.ok.injEq, List.append_assoc,
      List.singleton_append]
    constructor
    · congr 1
      congr 1
      · simp
      · apply List.map_congr_left
        intro i hi
        rw [List.mem_range'_1] at hi
        simp only [List.length_append, List.length_cons, List.length_nil, MsgRec.mk.injEq,
          true_and, and_true]
        omega
    · simp

/-- Explicit form of `TelegramService.uploadFile` when every chunk upload
succeeds and the size check passes. -/
theorem tgUploadFile_allOk (r : Remote) (c : Nat) (data : Bytes)
    (hsize : data.length ≤ MAX_FILE_SIZE) :
    TelegramService.uploadFile (fun _ => true) r c data =
      (.ok ((List.range (numChunks c data.length)).map
          (fun i => ⟨i, r.store.length + i, (chunkBytes c data i).length⟩)),
       ⟨r.store ++ (List.range (numChunks c data.length)).map (chunkBytes c data),
        r.deleteAttempts⟩) := by
  unfold TelegramService.uploadFile
  rw [if_neg (by omega), List.range_eq_range', tgUploadLoop_allOk]
  simp only [List.nil_append, Prod.mk.injEq, Except.ok.injEq]
  constructor
  · apply List.map_congr_left
    intro i hi
    simp
  · trivial

/-- The upload loop never attempts a remote delete, regardless of which
chunk uploads fail. -/
theorem tgUploadLoop_deleteAttempts (ok : Nat → Bool) (c : Nat) (data : Bytes) :
    ∀ (is : List Nat) (r : Remote) (acc : List MsgRec),
    ((tgUploadLoop ok c data is r acc).2).deleteAttempts = r.deleteAttempts := by
  intro is
  induction is with
  | nil => intro r acc; rfl
  | cons i rest ih =>
    intro r acc
    simp only [tgUploadLoop]
    by_cases h : ok i
    · rw [if_pos h, ih]
      rfl
    · rw [if_neg h]

/-- `TelegramService.uploadFile` never attempts a remote delete. -/
theorem tgUploadFile_deleteAttempts (ok : Nat → Bool) (r : Remote) (c : Nat)
    (data : Bytes) :
    ((TelegramService.uploadFile ok r c data).2).deleteAttempts = r.deleteAttempts := by
  unfold TelegramService.uploadFile
  by_cases h : MAX_FILE_SIZE < data.length
  · rw [if_pos h]
  · rw [if_neg h]
    exact tgUploadLoop_deleteAttempts ok c data _ r []

/-- When the Telegram upload fails, `FileService.uploadFile` rethrows that
error and leaves the database untouched. -/
theorem fsUploadFile_error (ok : Nat → Bool) (st : SysState) (c : Nat) (data : Bytes)
    (name mime : String) (folderId : Option Nat) (e : TgError)
    (h : (TelegramService.uploadFile ok st.remote c data).1 = .error e) :
    FileService.uploadFile ok st c data name mime folderId =
      (.error e, ⟨st.db, (TelegramService.uploadFile ok st.remote c data).2⟩) := by
  unfold FileService.uploadFile
  rcases hu : TelegramService.uploadFile ok st.remote c data with ⟨res, r⟩
  rw [hu] at h
  simp only at h
  subst h
  rfl

/-- The database update performed by the chunk-record loop of
`FileService.uploadFile`: one `file_chunks` insert per uploaded chunk. -/
theorem foldl_createFileChunk (fid : Nat) :
    ∀ (ms : List MsgRec) (db : DB),
    ms.foldl (fun db m =>
        DatabaseService.createFileChunk db fid m.index m.telegramFileId m.size) db =
      ⟨db.files, db.fileChunks ++ ms.map (fun m => ⟨fid, m.index, m.telegramFileId, m.size⟩),
       db.tempChunks, db.nextFileId⟩ := by
  intro ms
  induction ms with
  | nil => intro db; simp
  | cons m rest ih =>
    intro db
    rw [List.foldl_cons, ih]
    simp [DatabaseService.createFileChunk]

/-- The database update performed by the promotion loop of
`FileService.mergeFileChunks`: one `file_chunks` insert per staged chunk. -/
theorem foldl_createFileChunk_temp (fid : Nat) :
    ∀ (ts : List TempChunkRow) (db : DB),
    ts.foldl (fun db t =>
        DatabaseService.createFileChunk db fid t.chunk_index t.telegram_file_id t.size) db =
      ⟨db.files,
       db.fileChunks ++ ts.map (fun t => ⟨fid, t.chunk_index, t.telegram_file_id, t.size⟩),
       db.tempChunks, db.nextFileId⟩ := by
  intro ts
  induction ts with
  | nil => intro db; simp
  | cons t rest ih =>
    intro db
    rw [List.foldl_cons, ih]
    simp [DatabaseService.createFileChunk]

/-- Explicit form of a fully successful single-shot `FileService.uploadFile`. -/
theorem fsUploadFile_allOk (st : SysState) (c : Nat) (data : Bytes)
    (name mime : String) (folderId : Option Nat)
    (hsize : data.length ≤ MAX_FILE_SIZE) :
    FileService.uploadFile (fun _ => true) st c data name mime folderId =
      (.ok ⟨st.db.nextFileId, name, folderId, data.length, mime⟩,
       ⟨⟨st.db.files ++ [⟨st.db.nextFileId, name, folderId, data.length, mime⟩],
         st.db.fileChunks ++ (List.range (numChunks c data.length)).map
           (fun i => ⟨st.db.nextFileId, i, st.remote.store.length + i,
                      (chunkBytes c data i).length⟩),
         st.db.tempChunks, st.db.nextFileId + 1⟩,
        ⟨st.remote.store ++ (List.range (numChunks c data.length)).map (chunkBytes c data),
         st.remote.deleteAttempts⟩⟩) := by
  unfold FileService.uploadFile
  rw [tgUploadFile_allOk st.remote c data hsize]
  simp only [DatabaseService.createFile, foldl_createFileChunk, List.map_map]
  rfl

/-- In a well-formed database, the chunk rows of the freshly created file
are exactly the newly inserted ones. -/
theorem getFileChunks_fresh (old new : List FileChunkRow) (ts : List TempChunkRow)
    (fs : List FileRec) (nid fid : Nat)
    (hwf : ∀ r ∈ old, r.file_id < fid)
    (hnew : ∀ r ∈ new, r.file_id = fid) :
    DatabaseService.getFileChunks ⟨fs, old ++ new, ts, nid⟩ fid = new := by
  unfold DatabaseService.getFileChunks
  simp only [List.filter_append]
  have h1 : old.filter (fun r => r.file_id == fid) = [] := by
    rw [List.filter_eq_nil_iff]
    intro r hr
    have := hwf r hr
    simp only [beq_iff_eq]
    omega
  have h2 : new.filter (fun r => r.file_id == fid) = new := by
    rw [List.filter_eq_self]
    intro r hr
    simp only [beq_iff_eq]
    exact hnew r hr
  rw [h1, h2, List.nil_append]

/-- After a fully successful single-shot upload on a well-formed database,
the committed chunk rows of the new file have indices `0 … N-1` in order and
sizes equal to the planned chunk lengths. -/
theorem fsUploadFile_chunks (st : SysState) (c : Nat) (data : Bytes)
    (name mime : String) (folderId : Option Nat)
    (hsize : data.length ≤ MAX_FILE_SIZE) (hwf : DBWF st.db) :
    DatabaseService.getFileChunks
        (FileService.uploadFile (fun _ => true) st c data name mime folderId).2.db
        st.db.nextFileId =
      (List.range (numChunks c data.length)).map
        (fun i => ⟨st.db.nextFileId, i, st.remote.store.length + i,
                   (chunkBytes c data i).length⟩) := by
  rw [fsUploadFile_allOk st c data name mime folderId hsize]
  exact getFileChunks_fresh st.db.fileChunks _ _ _ _ st.db.nextFileId hwf.1
    (by intro r hr; rw [List.mem_map] at hr; obtain ⟨i, _, rfl⟩ := hr; rfl)

/-- Length of the bytes of planned chunk `i`, in telescoping form. -/
theorem chunkBytes_length (c : Nat) (data : Bytes) (i : Nat) :
    (chunkBytes c data i).length =
      min ((i + 1) * c) data.length - min (i * c) data.length := by
  have h : i * c ≤ (i + 1) * c := Nat.mul_le_mul_right _ (by omega)
  simp only [chunkBytes, jsSlice, List.length_take, List.length_drop, Nat.succ_mul]
  omega

/-- The byte lengths of all planned chunks sum to the file length. -/
theorem sum_chunkBytes_length (c : Nat) (data : Bytes) (hc : 0 < c) :
    ((List.range (numChunks c data.length)).map
        (fun i => (chunkBytes c data i).length)).sum = data.length := by
  have heq : ∀ i ∈ List.range (numChunks c data.length),
      (fun i => (chunkBytes c data i).length) i =
        (fun i => min ((i + 1) * c) data.length - min (i * c) data.length) i := by
    intro i _
    exact chunkBytes_length c data i
  rw [List.map_congr_left heq]
  have mono : ∀ i, min (i * c) data.length ≤ min ((i + 1) * c) data.length := by
    intro i
    have h : i * c ≤ (i + 1) * c := Nat.mul_le_mul_right _ (by omega)
    omega
  have := sum_range_map_sub (fun i => min (i * c) data.length) mono
      (numChunks c data.length)
  simp only at this
  rw [this]
  have hge := numChunks_mul_ge c data.length hc
  omega

/-- A fully successful single-shot upload establishes the committed-chunk
invariant for the new file record. -/
theorem fsUploadFile_invariant (st : SysState) (c : Nat) (data : Bytes)
    (name mime : String) (folderId : Option Nat) (hc : 0 < c)
    (hsize : data.length ≤ MAX_FILE_SIZE) (hwf : DBWF st.db) :
    chunkInvariant (FileService.uploadFile (fun _ => true) st c data name mime folderId).2.db
      ⟨st.db.nextFileId, name, folderId, data.length, mime⟩ := by
  unfold chunkInvariant
  have hrows := fsUploadFile_chunks st c data name mime folderId hsize hwf
  have hid : (⟨st.db.nextFileId, name, folderId, data.length, mime⟩ : FileRec).id =
      st.db.nextFileId := rfl
  rw [hid, hrows]
  constructor
  · rw [List.map_map, List.length_map, List.length_range]
    have heq : ∀ i ∈ List.range (numChunks c data.length),
        (FileChunkRow.chunk_index ∘ fun i =>
          (⟨st.db.nextFileId, i, st.remote.store.length + i,
            (chunkBytes c data i).length⟩ : FileChunkRow)) i = i := by
      intro i _
      rfl
    rw [List.map_congr_left heq]
    rw [show List.map (fun i => i) (List.range (numChunks c data.length)) =
        List.range (numChunks c data.length) from List.map_id _]
  · rw [List.map_map]
    have heq : ∀ i ∈ List.range (numChunks c data.length),
        (FileChunkRow.size ∘ fun i =>
          (⟨st.db.nextFileId, i, st.remote.store.length + i,
            (chunkBytes c data i).length⟩ : FileChunkRow)) i =
          (fun i => (chunkBytes c data i).length) i := by
      intro i _
      rfl
    rw [List.map_congr_left heq]
    exact sum_chunkBytes_length c data hc

/-- Explicit form of a successful `FileService.mergeFileChunks` call. -/
theorem mergeFileChunks_success (st : SysState) (u fileName : String) (fileSize : Nat)
    (mime : String) (folderId : Option Nat) (declared : Nat)
    (hne : DatabaseService.getTempChunks st.db u ≠ [])
    (hlen : (DatabaseService.getTempChunks st.db u).length = declared) :
    FileService.mergeFileChunks st u fileName fileSize mime folderId declared =
      (.ok ⟨st.db.nextFileId, fileName, folderId, fileSize, mime⟩,
       ⟨⟨st.db.files ++ [⟨st.db.nextFileId, fileName, folderId, fileSize, mime⟩],
         st.db.fileChunks ++ (DatabaseService.getTempChunks st.db u).map
           (fun t => ⟨st.db.nextFileId, t.chunk_index, t.telegram_file_id, t.size⟩),
         st.db.tempChunks.filter (fun t => t.upload_id != u),
         st.db.nextFileId + 1⟩,
        st.remote⟩) := by
  unfold FileService.mergeFileChunks
  rw [if_neg (by simp only [List.isEmpty_eq_true]; exact hne)]
  rw [if_neg (by omega)]
  simp only [DatabaseService.createFile]
  rw [foldl_createFileChunk_temp]
  simp only [DatabaseService.deleteTempChunks]

/-- A failed merge (staged count differing from the declared count) returns
an error and the state produced by `cleanupFailedUpload`. -/
theorem mergeFileChunks_mismatch (st : SysState) (u fileName : String) (fileSize : Nat)
    (mime : String) (folderId : Option Nat) (declared : Nat)
    (hmis : (DatabaseService.getTempChunks st.db u).length ≠ declared) :
    ∃ e, FileService.mergeFileChunks st u fileName fileSize mime folderId declared =
        (.error e, (FileService.cleanupFailedUpload st u).2) ∧
      (e = .noChunks ∨
       e = .countMismatch declared (DatabaseService.getTempChunks st.db u).length) := by
  unfold FileService.mergeFileChunks
  by_cases hemp : (DatabaseService.getTempChunks st.db u).isEmpty
  · refine ⟨.noChunks, ?_, Or.inl rfl⟩
    rw [if_pos hemp]
  · refine ⟨.countMismatch declared (DatabaseService.getTempChunks st.db u).length,
      ?_, Or.inr rfl⟩
    rw [if_neg hemp, if_pos hmis]

/-- `cleanupFailedUpload` always reports success. -/
theorem cleanup_success (st : SysState) (u : String) :
    (FileService.cleanupFailedUpload st u).1.success = true := by
  unfold FileService.cleanupFailedUpload
  by_cases h : (DatabaseService.getTempChunks st.db u).isEmpty
  · rw [if_pos h]
  · rw [if_neg h]

/-- After `cleanupFailedUpload`, no staged rows remain for the upload id. -/
theorem cleanup_tempChunks (st : SysState) (u : String) :
    DatabaseService.getTempChunks (FileService.cleanupFailedUpload st u).2.db u = [] := by
  unfold FileService.cleanupFailedUpload
  by_cases h : (DatabaseService.getTempChunks st.db u).isEmpty
  · rw [if_pos h]
    exact List.isEmpty_eq_true.mp h
  · rw [if_neg h]
    simp only [DatabaseService.getTempChunks, DatabaseService.deleteTempChunks,
      List.filter_filter]
    rw [List.filter_eq_nil_iff]
    intro t _
    simp [bne]

/-- `cleanupFailedUpload` never touches `files`, `file_chunks` or the next
file id. -/
theorem cleanup_preserves (st : SysState) (u : String) :
    (FileService.cleanupFailedUpload st u).2.db.files = st.db.files ∧
    (FileService.cleanupFailedUpload st u).2.db.fileChunks = st.db.fileChunks ∧
    (FileService.cleanupFailedUpload st u).2.db.nextFileId = st.db.nextFileId := by
  unfold FileService.cleanupFailedUpload
  by_cases h : (DatabaseService.getTempChunks st.db u).isEmpty
  · rw [if_pos h]
    exact ⟨rfl, rfl, rfl⟩
  · rw [if_neg h]
    exact ⟨rfl, rfl, rfl⟩

/-- A second `cleanupFailedUpload` on the same upload id is the identity and
reports no cleared-chunk count. -/
theorem cleanup_second (st : SysState) (u : String) :
    FileService.cleanupFailedUpload (FileService.cleanupFailedUpload st u).2 u =
      (⟨true, none⟩, (FileService.cleanupFailedUpload st u).2) := by
  have h := cleanup_tempChunks st u
  unfold FileService.cleanupFailedUpload
  rw [if_pos (by rw [List.isEmpty_eq_true]; exact h)]

/-- A successful resumable merge establishes the committed-chunk invariant
for the new file, provided the staged rows already carry contiguous indices
and sizes summing to the declared file size. -/
theorem mergeFileChunks_invariant (st : SysState) (u fileName : String) (fileSize : Nat)
    (mime : String) (folderId : Option Nat) (declared : Nat)
    (hwf : DBWF st.db)
    (hne : DatabaseService.getTempChunks st.db u ≠ [])
    (hlen : (DatabaseService.getTempChunks st.db u).length = declared)
    (hperm : ((DatabaseService.getTempChunks st.db u).map (fun t => t.chunk_index)).Perm
        (List.range (DatabaseService.getTempChunks st.db u).length))
    (hsum : ((DatabaseService.getTempChunks st.db u).map (fun t => t.size)).sum = fileSize) :
    chunkInvariant
      (FileService.mergeFileChunks st u fileName fileSize mime folderId declared).2.db
      ⟨st.db.nextFileId, fileName, folderId, fileSize, mime⟩ := by
  rw [mergeFileChunks_success st u fileName fileSize mime folderId declared hne hlen]
  unfold chunkInvariant
  have hid : (⟨st.db.nextFileId, fileName, folderId, fileSize, mime⟩ : FileRec).id =
      st.db.nextFileId := rfl
  rw [hid]
  have hrows := getFileChunks_fresh st.db.fileChunks
    ((DatabaseService.getTempChunks st.db u).map
      (fun t => ⟨st.db.nextFileId, t.chunk_index, t.telegram_file_id, t.size⟩))
    (st.db.tempChunks.filter (fun t => t.upload_id != u))
    (st.db.files ++ [⟨st.db.nextFileId, fileName, folderId, fileSize, mime⟩])
    (st.db.nextFileId + 1) st.db.nextFileId hwf.1
    (by intro r hr; rw [List.mem_map] at hr; obtain ⟨t, _, rfl⟩ := hr; rfl)
  rw [hrows]
  constructor
  · rw [List.map_map, List.length_map]
    have heq : ∀ t ∈ DatabaseService.getTempChunks st.db u,
        (FileChunkRow.chunk_index ∘ fun t =>
          (⟨st.db.nextFileId, t.chunk_index, t.telegram_file_id, t.size⟩ : FileChunkRow)) t =
          (fun t => t.chunk_index) t := by
      intro t _
      rfl
    rw [List.map_congr_left heq]
    exact hperm
  · rw [List.map_map]
    have heq : ∀ t ∈ DatabaseService.getTempChunks st.db u,
        (FileChunkRow.size ∘ fun t =>
          (⟨st.db.nextFileId, t.chunk_index, t.telegram_file_id, t.size⟩ : FileChunkRow)) t =
          (fun t => t.size) t := by
      intro t _
      rfl
    rw [List.map_congr_left heq]
    exact hsum

/-- The sort in `TelegramService.downloadFile` permutes its input. -/
theorem sortChunks_perm (l : List FileChunkRow) : (sortChunks l).Perm l :=
  List.perm_insertionSort _ l

/-- The sort in `TelegramService.downloadFile` orders rows by `chunk_index`. -/
theorem sortChunks_sorted (l : List FileChunkRow) :
    List.Sorted (fun a b => a.chunk_index ≤ b.chunk_index) (sortChunks l) := by
  haveI : IsTotal FileChunkRow (fun a b => a.chunk_index ≤ b.chunk_index) :=
    ⟨fun a b => Nat.le_total _ _⟩
  haveI : IsTrans FileChunkRow (fun a b => a.chunk_index ≤ b.chunk_index) :=
    ⟨fun _ _ _ h1 h2 => Nat.le_trans h1 h2⟩
  exact List.sorted_insertionSort _ l

/-- When the chunk rows carry pairwise-distinct indices (guaranteed by the
UNIQUE constraint on `(file_id, chunk_index)`), sorting any permutation of
them yields the unique strictly ascending arrangement. -/
theorem sortChunks_eq_of_perm (l l' asc : List FileChunkRow)
    (hperm : l'.Perm l) (hasc : asc.Perm l)
    (hnodup : l.Pairwise (fun a b => a.chunk_index ≠ b.chunk_index))
    (hsorted : List.Sorted (fun a b => a.chunk_index < b.chunk_index) asc) :
    sortChunks l' = asc := by
  haveI : IsAntisymm FileChunkRow (fun a b => a.chunk_index < b.chunk_index) :=
    ⟨fun a b h1 h2 => ((Nat.lt_asymm h1) h2).elim⟩
  apply List.eq_of_perm_of_sorted (r := fun a b => a.chunk_index < b.chunk_index)
  · exact (sortChunks_perm l').trans (hperm.trans hasc.symm)
  · have hsym : ∀ {x y : FileChunkRow},
        x.chunk_index ≠ y.chunk_index → y.chunk_index ≠ x.chunk_index :=
      fun h => h.symm
    have h1 : l'.Pairwise (fun a b => a.chunk_index ≠ b.chunk_index) :=
      (hperm.pairwise_iff hsym).mpr hnodup
    have h2 : (sortChunks l').Pairwise (fun a b => a.chunk_index ≠ b.chunk_index) :=
      ((sortChunks_perm l').pairwise_iff hsym).mpr h1
    exact ((sortChunks_sorted l').and h2).imp
      (fun h => Nat.lt_of_le_of_ne h.1 h.2)
  · exact hsorted

/-- Sorting an already index-sorted chunk list leaves it unchanged. -/
theorem sortChunks_of_sorted (l : List FileChunkRow)
    (h : List.Sorted (fun a b => a.chunk_index ≤ b.chunk_index) l) :
    sortChunks l = l :=
  List.Sorted.insertionSort_eq h

/-- The chunk rows committed by a successful single-shot upload are already
sorted by index. -/
theorem uploadedRows_sorted (fid base : Nat) (lenf : Nat → Nat) (k j : Nat) :
    List.Sorted (fun a b => a.chunk_index ≤ b.chunk_index)
      ((List.range' j k).map
        (fun i => (⟨fid, i, base + i, lenf i⟩ : FileChunkRow))) := by
  rw [List.Sorted, List.pairwise_map]
  have h := List.pairwise_lt_range' j k
  exact h.imp (fun hab => Nat.le_of_lt hab)

/-- Fetching the committed rows of a successful upload from the grown store
returns exactly the planned chunk byte lists. -/
theorem fetchAll_uploaded (st0 : List Bytes) (kTot c : Nat) (data : Bytes) (fid : Nat) :
    ∀ (k j : Nat), j + k ≤ kTot →
    fetchAll (st0 ++ (List.range kTot).map (chunkBytes c data))
        ((List.range' j k).map
          (fun i => ⟨fid, i, st0.length + i, (chunkBytes c data i).length⟩)) =
      some ((List.range' j k).map (chunkBytes c data)) := by
  intro k
  induction k with
  | zero =>
    intro j h
    simp [List.range'_zero, fetchAll]
  | succ k ih =>
    intro j h
    rw [List.range'_succ, List.map_cons, List.map_cons]
    simp only [fetchAll]
    have hget : (st0 ++ (List.range kTot).map (chunkBytes c data))[st0.length + j]? =
        some (chunkBytes c data j) := by
      rw [List.getElem?_append_right (by omega)]
      have hj : st0.length + j - st0.length = j := by omega
      rw [hj, List.getElem?_map, List.getElem?_range (by omega)]
      rfl
    rw [hget, ih (j + 1) (by omega)]

/-- Round trip at the Telegram service layer: downloading the rows recorded
by a successful whole-file upload returns exactly the uploaded bytes. -/
theorem tgRoundTrip (r : Remote) (c : Nat) (data : Bytes) (fid : Nat)
    (recs : List MsgRec) (rEnd : Remote) (hc : 0 < c)
    (hsize : data.length ≤ MAX_FILE_SIZE)
    (hup : TelegramService.uploadFile (fun _ => true) r c data = (.ok recs, rEnd)) :
    TelegramService.downloadFile rEnd.store
      (recs.map (fun m => ⟨fid, m.index, m.telegramFileId, m.size⟩)) = some data := by
  rw [tgUploadFile_allOk r c data hsize] at hup
  have h1 : recs = (List.range (numChunks c data.length)).map
      (fun i => ⟨i, r.store.length + i, (chunkBytes c data i).length⟩) := by
    have := congrArg Prod.fst hup
    simp only at this
    exact (Except.ok.injEq _ _ ▸ this.symm :)
  have h2 : rEnd = ⟨r.store ++ (List.range (numChunks c data.length)).map (chunkBytes c data),
      r.deleteAttempts⟩ := by
    have := congrArg Prod.snd hup
    simp only at this
    exact this.symm
  subst h1
  subst h2
  rw [List.map_map]
  have hmaps : ((List.range (numChunks c data.length)).map
      ((fun m : MsgRec => (⟨fid, m.index, m.telegramFileId, m.size⟩ : FileChunkRow)) ∘
        fun i => (⟨i, r.store.length + i, (chunkBytes c data i).length⟩ : MsgRec))) =
      (List.range (numChunks c data.length)).map
        (fun i => (⟨fid, i, r.store.length + i, (chunkBytes c data i).length⟩ : FileChunkRow)) := by
    apply List.map_congr_left
    intro i _
    rfl
  rw [hmaps]
  unfold TelegramService.downloadFile
  have hsorted : List.Sorted (fun a b => a.chunk_index ≤ b.chunk_index)
      ((List.range (numChunks c data.length)).map
        (fun i => (⟨fid, i, r.store.length + i,
                   (chunkBytes c data i).length⟩ : FileChunkRow))) := by
    have h := uploadedRows_sorted fid r.store.length
      (fun i => (chunkBytes c data i).length) (numChunks c data.length) 0
    rw [← List.range_eq_range'] at h
    exact h
  rw [sortChunks_of_sorted _ hsorted]
  have hfetch := fetchAll_uploaded r.store (numChunks c data.length) c data fid
      (numChunks c data.length) 0 (by omega)
  rw [← List.range_eq_range'] at hfetch
  rw [hfetch]
  show some (TelegramService.mergeChunks
      ((List.range (numChunks c data.length)).map (chunkBytes c data))) = some data
  unfold TelegramService.mergeChunks
  rw [flatten_chunkBytes data c hc]

/-- The sequential chunk fetch succeeds whenever every referenced remote
handle resolves in the store. -/
theorem fetchAll_isSome (store : List Bytes) :
    ∀ rows : List FileChunkRow,
    (∀ r ∈ rows, r.telegram_file_id < store.length) →
    ∃ bs, fetchAll store rows = some bs := by
  intro rows
  induction rows with
  | nil =>
    intro _
    exact ⟨[], rfl⟩
  | cons r rest ih =>
    intro h
    obtain ⟨bs, hbs⟩ := ih (fun x hx => h x (List.mem_cons_of_mem _ hx))
    have hr := h r (List.mem_cons_self _ _)
    refine ⟨store[r.telegram_file_id] :: bs, ?_⟩
    simp only [fetchAll]
    rw [List.getElem?_eq_getElem hr, hbs]

/-- Any failing merge call leaves no staged rows for its upload id: the
catch handler's `cleanupFailedUpload` deletes them. -/
theorem mergeFileChunks_error_temp (st : SysState) (u fileName : String)
    (fileSize : Nat) (mime : String) (folderId : Option Nat) (declared : Nat)
    (e : MergeError)
    (h : (FileService.mergeFileChunks st u fileName fileSize mime folderId declared).1 =
      .error e) :
    DatabaseService.getTempChunks
      (FileService.mergeFileChunks st u fileName fileSize mime folderId declared).2.db
      u = [] := by
  unfold FileService.mergeFileChunks at h ⊢
  by_cases hemp : (DatabaseService.getTempChunks st.db u).isEmpty
  · rw [if_pos hemp]
    exact cleanup_tempChunks st u
  · rw [if_neg hemp] at h ⊢
    by_cases hmis : (DatabaseService.getTempChunks st.db u).length ≠ declared
    · rw [if_pos hmis]
      exact cleanup_tempChunks st u
    · rw [if_neg hmis] at h
      simp at h

/-- C1: the claim states that for `totalSize == 0` the chunk plan yields a
single zero-length chunk so that a 0-byte file gets one remote object and
one FileChunk row and reassembles to empty.  The code instead computes
`Math.ceil(0 / chunkSize) = 0` chunks: a 0-byte upload with the service's
5 MB chunk size succeeds, commits a `files` row with zero `file_chunks`
rows, and `FileService.downloadFile` then throws its missing-chunks error —
the committed state is one the download path itself treats as corrupt. -/
theorem c1_zero_byte_file :
    uploadPlan (5 * 1024 * 1024) 0 = [] ∧
    (FileService.uploadFile (fun _ => true) ⟨⟨[], [], [], 1⟩, ⟨[], []⟩⟩
        (5 * 1024 * 1024) [] "empty.txt" "text/plain" none).1 =
      .ok ⟨1, "empty.txt", none, 0, "text/plain"⟩ ∧
    DatabaseService.getFileChunks
      (FileService.uploadFile (fun _ => true) ⟨⟨[], [], [], 1⟩, ⟨[], []⟩⟩
        (5 * 1024 * 1024) [] "empty.txt" "text/plain" none).2.db 1 = [] ∧
    FileService.downloadFile
      (FileService.uploadFile (fun _ => true) ⟨⟨[], [], [], 1⟩, ⟨[], []⟩⟩
        (5 * 1024 * 1024) [] "empty.txt" "text/plain" none).2 1 =
      .error .missingChunks := by
  refine ⟨?_, ?_, ?_, ?_⟩ <;> decide

/-- C3 counterexample: at `totalSize = 0` (where `0 mod maxChunkSize = 0`)
the claim requires a last chunk of length `maxChunkSize = 5`, but the plan
is empty and has no last chunk at all. -/
theorem c3_counterexample :
    ¬ ∃ chD : ChunkDesc, (uploadPlan 5 0).getLast? = some chD ∧ chD.length = 5 := by
  intro h
  obtain ⟨chD, hch, _⟩ := h
  have hnone : (uploadPlan 5 0).getLast? = none := by decide
  rw [hnone] at hch
  exact Option.noConfusion hch

/-- C3 (amended): for every `totalSize ≥ 0` and `maxChunkSize > 0` the plan's
lengths sum to `totalSize`, indices are contiguous and zero-based, every
chunk fits in `maxChunkSize` and ends inside the file; the last-chunk length
law (`totalSize mod maxChunkSize`, or `maxChunkSize` when that is zero)
holds for every `totalSize > 0` — for `totalSize = 0` the plan is empty. -/
theorem c3_plan_properties (c n : Nat) (hc : 0 < c) :
    ((uploadPlan c n).map ChunkDesc.length).sum = n ∧
    (uploadPlan c n).map ChunkDesc.index = List.range ((uploadPlan c n).length) ∧
    (∀ ch ∈ uploadPlan c n, ch.length ≤ c ∧ ch.offset + ch.length ≤ n) ∧
    (0 < n → ∃ chD, (uploadPlan c n).getLast? = some chD ∧
      chD.length = (if n % c = 0 then c else n % c)) := by
  refine ⟨uploadPlan_sum c n hc, ?_, uploadPlan_bounds c n hc, ?_⟩
  · rw [uploadPlan_length]
    exact uploadPlan_indices c n
  · intro hn
    exact ⟨planChunk c n (numChunks c n - 1), uploadPlan_getLast c n hc hn,
      planChunk_last_length c n hc hn⟩

/-- C3 witness: the 12-byte file with 5-byte chunks from the spec's
scenario (chunks of length 5, 5, 2). -/
theorem c3_witness :
    ((uploadPlan 5 12).map ChunkDesc.length).sum = 12 ∧
    (uploadPlan 5 12).map ChunkDesc.index = List.range ((uploadPlan 5 12).length) ∧
    (∀ ch ∈ uploadPlan 5 12, ch.length ≤ 5 ∧ ch.offset + ch.length ≤ 12) ∧
    (∃ chD, (uploadPlan 5 12).getLast? = some chD ∧
      chD.length = (if 12 % 5 = 0 then 5 else 12 % 5)) := by
  have h := c3_plan_properties 5 12 (by decide)
  exact ⟨h.1, h.2.1, h.2.2.1, h.2.2.2 (by decide)⟩

/-- C4: round trip at the Telegram layer — downloading the chunk rows
produced by a successful whole-file upload returns bytes identical to the
input, and the returned byte count equals the input length. -/
theorem c4_round_trip (r : Remote) (c : Nat) (data : Bytes) (fid : Nat)
    (recs : List MsgRec) (rEnd : Remote) (hc : 0 < c)
    (hsize : data.length ≤ MAX_FILE_SIZE)
    (hup : TelegramService.uploadFile (fun _ => true) r c data = (.ok recs, rEnd)) :
    TelegramService.downloadFile rEnd.store
        (recs.map (fun m => ⟨fid, m.index, m.telegramFileId, m.size⟩)) = some data ∧
    (TelegramService.downloadFile rEnd.store
        (recs.map (fun m => ⟨fid, m.index, m.telegramFileId, m.size⟩))).map
      List.length = some data.length := by
  have h := tgRoundTrip r c data fid recs rEnd hc hsize hup
  exact ⟨h, by rw [h]; rfl⟩

/-- C4 witness: a 3-byte file with 2-byte chunks round-trips. -/
theorem c4_round_trip_witness :
    TelegramService.downloadFile
        ((⟨[[9, 8], [7]], []⟩ : Remote)).store
        (([⟨0, 0, 2⟩, ⟨1, 1, 1⟩] : List MsgRec).map
          (fun m => ⟨7, m.index, m.telegramFileId, m.size⟩)) = some [9, 8, 7] ∧
    (TelegramService.downloadFile
        ((⟨[[9, 8], [7]], []⟩ : Remote)).store
        (([⟨0, 0, 2⟩, ⟨1, 1, 1⟩] : List MsgRec).map
          (fun m => ⟨7, m.index, m.telegramFileId, m.size⟩))).map
      List.length = some ([9, 8, 7] : Bytes).length :=
  c4_round_trip ⟨[], []⟩ 2 [9, 8, 7] 7 [⟨0, 0, 2⟩, ⟨1, 1, 1⟩] ⟨[[9, 8], [7]], []⟩
    (by decide) (by decide) (by decide)

/-- C2 counterexample: one staged chunk for upload id "u", merge declared 2
chunks — the merge fails, and the staged TempChunk row is gone afterwards
(auto-cleaned by the catch handler), contradicting the claim that the rows
remain in place for a merge-only retry. -/
theorem c2_counterexample :
    (FileService.mergeFileChunks
        ⟨⟨[], [], [⟨"u", 0, 0, 5, "f", 10, none⟩], 1⟩, ⟨[[1, 2, 3, 4, 5]], []⟩⟩
        "u" "f" 10 "m" none 2).1 = .error (.countMismatch 2 1) ∧
    DatabaseService.getTempChunks
      (FileService.mergeFileChunks
        ⟨⟨[], [], [⟨"u", 0, 0, 5, "f", 10, none⟩], 1⟩, ⟨[[1, 2, 3, 4, 5]], []⟩⟩
        "u" "f" 10 "m" none 2).2.db "u" = [] := by
  refine ⟨?_, ?_⟩ <;> decide

/-- C2 (amended): when a resumable merge fails — for any reason, including
an incomplete chunk set — the catch handler invokes `cleanupFailedUpload`,
which deletes the TempChunk rows for that upload id; the caller must
re-upload the chunks before retrying the merge. -/
theorem c2_failed_merge_cleans (st : SysState) (u fileName : String) (fileSize : Nat)
    (mime : String) (folderId : Option Nat) (declared : Nat) (e : MergeError)
    (h : (FileService.mergeFileChunks st u fileName fileSize mime folderId declared).1 =
      .error e) :
    DatabaseService.getTempChunks
      (FileService.mergeFileChunks st u fileName fileSize mime folderId declared).2.db
      u = [] :=
  mergeFileChunks_error_temp st u fileName fileSize mime folderId declared e h

/-- C2 witness: the one-staged-chunk merge with declared total 2. -/
theorem c2_failed_merge_cleans_witness :
    DatabaseService.getTempChunks
      (FileService.mergeFileChunks
        ⟨⟨[], [], [⟨"u", 0, 0, 5, "f", 10, none⟩], 1⟩, ⟨[[1, 2, 3, 4, 5]], []⟩⟩
        "u" "f" 10 "m" none 2).2.db "u" = [] :=
  c2_failed_merge_cleans
    ⟨⟨[], [], [⟨"u", 0, 0, 5, "f", 10, none⟩], 1⟩, ⟨[[1, 2, 3, 4, 5]], []⟩⟩
    "u" "f" 10 "m" none 2 (.countMismatch 2 1) (by decide)

/-- C5 counterexample: chunks staged with indices 0 and 2 (stage index 1 was
never uploaded) and declared total 2 pass the merge's count-only validation;
the resulting committed file has chunk indices with a gap, violating the
claimed invariant on the resumable path. -/
theorem c5_counterexample :
    (FileService.mergeFileChunks
        ⟨⟨[], [], [⟨"u", 0, 0, 5, "f", 10, none⟩, ⟨"u", 2, 1, 5, "f", 10, none⟩], 1⟩,
         ⟨[[1], [2]], []⟩⟩ "u" "f" 10 "m" none 2).1 = .ok ⟨1, "f", none, 10, "m"⟩ ∧
    (DatabaseService.getFileChunks
        (FileService.mergeFileChunks
          ⟨⟨[], [], [⟨"u", 0, 0, 5, "f", 10, none⟩, ⟨"u", 2, 1, 5, "f", 10, none⟩], 1⟩,
           ⟨[[1], [2]], []⟩⟩ "u" "f" 10 "m" none 2).2.db 1).map
      (fun row => row.chunk_index) = [0, 2] ∧
    ¬ ((DatabaseService.getFileChunks
        (FileService.mergeFileChunks
          ⟨⟨[], [], [⟨"u", 0, 0, 5, "f", 10, none⟩, ⟨"u", 2, 1, 5, "f", 10, none⟩], 1⟩,
           ⟨[[1], [2]], []⟩⟩ "u" "f" 10 "m" none 2).2.db 1).map
        (fun row => row.chunk_index)).Perm
      (List.range (DatabaseService.getFileChunks
        (FileService.mergeFileChunks
          ⟨⟨[], [], [⟨"u", 0, 0, 5, "f", 10, none⟩, ⟨"u", 2, 1, 5, "f", 10, none⟩], 1⟩,
           ⟨[[1], [2]], []⟩⟩ "u" "f" 10 "m" none 2).2.db 1).length) := by
  refine ⟨?_, ?_, ?_⟩ <;> decide

/-- C5 (amended): the committed-chunk invariant — indices exactly
`0 … N-1` and sizes summing to `File.size` — holds after every successful
single-shot upload on a well-formed database, and after a successful
resumable merge provided the staged rows already carry a gap-free index set
and sizes summing to the declared file size (the merge itself validates
only the chunk count and copies indices and sizes verbatim). -/
theorem c5_chunk_invariant :
    (∀ (st : SysState) (c : Nat) (data : Bytes) (name mime : String)
        (folderId : Option Nat), 0 < c → data.length ≤ MAX_FILE_SIZE → DBWF st.db →
      ∃ fr, (FileService.uploadFile (fun _ => true) st c data name mime folderId).1 =
          .ok fr ∧
        fr.size = data.length ∧
        chunkInvariant
          (FileService.uploadFile (fun _ => true) st c data name mime folderId).2.db fr) ∧
    (∀ (st : SysState) (u fileName : String) (fileSize : Nat) (mime : String)
        (folderId : Option Nat) (declared : Nat), DBWF st.db →
      DatabaseService.getTempChunks st.db u ≠ [] →
      (DatabaseService.getTempChunks st.db u).length = declared →
      ((DatabaseService.getTempChunks st.db u).map (fun t => t.chunk_index)).Perm
        (List.range (DatabaseService.getTempChunks st.db u).length) →
      ((DatabaseService.getTempChunks st.db u).map (fun t => t.size)).sum = fileSize →
      ∃ fr, (FileService.mergeFileChunks st u fileName fileSize mime folderId
          declared).1 = .ok fr ∧
        fr.size = fileSize ∧
        chunkInvariant
          (FileService.mergeFileChunks st u fileName fileSize mime folderId
            declared).2.db fr) := by
  constructor
  · intro st c data name mime folderId hc hsize hwf
    refine ⟨⟨st.db.nextFileId, name, folderId, data.length, mime⟩, ?_, rfl, ?_⟩
    · rw [fsUploadFile_allOk st c data name mime folderId hsize]
    · exact fsUploadFile_invariant st c data name mime folderId hc hsize hwf
  · intro st u fileName fileSize mime folderId declared hwf hne hlen hperm hsum
    refine ⟨⟨st.db.nextFileId, fileName, folderId, fileSize, mime⟩, ?_, rfl, ?_⟩
    · rw [mergeFileChunks_success st u fileName fileSize mime folderId declared hne hlen]
    · exact mergeFileChunks_invariant st u fileName fileSize mime folderId declared
        hwf hne hlen hperm hsum

/-- C5 witness: a 3-byte single-shot upload with 2-byte chunks, and a merge
of two properly staged chunks with indices 0 and 1, both satisfy the
invariant. -/
theorem c5_chunk_invariant_witness :
    (∃ fr, (FileService.uploadFile (fun _ => true) ⟨⟨[], [], [], 1⟩, ⟨[], []⟩⟩
          2 [4, 5, 6] "a.bin" "m" none).1 = .ok fr ∧
      fr.size = ([4, 5, 6] : Bytes).length ∧
      chunkInvariant
        (FileService.uploadFile (fun _ => true) ⟨⟨[], [], [], 1⟩, ⟨[], []⟩⟩
          2 [4, 5, 6] "a.bin" "m" none).2.db fr) ∧
    (∃ fr, (FileService.mergeFileChunks
          ⟨⟨[], [], [⟨"u", 0, 0, 2, "f", 3, none⟩, ⟨"u", 1, 1, 1, "f", 3, none⟩], 1⟩,
           ⟨[[1, 2], [3]], []⟩⟩ "u" "f" 3 "m" none 2).1 = .ok fr ∧
      fr.size = 3 ∧
      chunkInvariant
        (FileService.mergeFileChunks
          ⟨⟨[], [], [⟨"u", 0, 0, 2, "f", 3, none⟩, ⟨"u", 1, 1, 1, "f", 3, none⟩], 1⟩,
           ⟨[[1, 2], [3]], []⟩⟩ "u" "f" 3 "m" none 2).2.db fr) :=
  ⟨c5_chunk_invariant.1 ⟨⟨[], [], [], 1⟩, ⟨[], []⟩⟩ 2 [4, 5, 6] "a.bin" "m" none
      (by decide) (by decide) (by decide),
   c5_chunk_invariant.2
      ⟨⟨[], [], [⟨"u", 0, 0, 2, "f", 3, none⟩, ⟨"u", 1, 1, 1, "f", 3, none⟩], 1⟩,
       ⟨[[1, 2], [3]], []⟩⟩ "u" "f" 3 "m" none 2
      (by decide) (by decide) (by decide) (by decide) (by decide)⟩

/-- C6 counterexample: chunk 0 of a two-chunk upload succeeds and chunk 1
fails; the error is surfaced and no metadata is written, but — contrary to
the claim — no remote delete is attempted for the already-uploaded chunk's
object: the delete-attempt log stays empty while the orphaned object sits in
the store. -/
theorem c6_counterexample :
    (FileService.uploadFile (fun i => i == 0) ⟨⟨[], [], [], 1⟩, ⟨[], []⟩⟩
        2 [1, 2, 3] "f.bin" "m" none).1 = .error (.chunkUploadFailed 1) ∧
    (FileService.uploadFile (fun i => i == 0) ⟨⟨[], [], [], 1⟩, ⟨[], []⟩⟩
        2 [1, 2, 3] "f.bin" "m" none).2.remote.store = [[1, 2]] ∧
    ¬ ∃ h, h ∈ (FileService.uploadFile (fun i => i == 0) ⟨⟨[], [], [], 1⟩, ⟨[], []⟩⟩
        2 [1, 2, 3] "f.bin" "m" none).2.remote.deleteAttempts := by
  have hda : (FileService.uploadFile (fun i => i == 0) ⟨⟨[], [], [], 1⟩, ⟨[], []⟩⟩
      2 [1, 2, 3] "f.bin" "m" none).2.remote.deleteAttempts = [] := by decide
  refine ⟨by decide, by decide, ?_⟩
  rintro ⟨h, hh⟩
  rw [hda] at hh
  exact absurd hh (List.not_mem_nil h)

/-- C6 (amended): if any chunk upload fails during a single-shot upload, the
whole operation aborts — the chunk-upload error is rethrown, no File or
FileChunk row is created (the database is untouched) — and no remote delete
is attempted: the already-uploaded chunks' objects are simply leaked. -/
theorem c6_failed_upload_no_trace (ok : Nat → Bool) (st : SysState) (c : Nat)
    (data : Bytes) (name mime : String) (folderId : Option Nat) (e : TgError)
    (h : (TelegramService.uploadFile ok st.remote c data).1 = .error e) :
    FileService.uploadFile ok st c data name mime folderId =
      (.error e, ⟨st.db, (TelegramService.uploadFile ok st.remote c data).2⟩) ∧
    (FileService.uploadFile ok st c data name mime folderId).2.remote.deleteAttempts =
      st.remote.deleteAttempts := by
  have h1 := fsUploadFile_error ok st c data name mime folderId e h
  refine ⟨h1, ?_⟩
  rw [h1]
  exact tgUploadFile_deleteAttempts ok st.remote c data

/-- C6 witness: the failing two-chunk upload of the counterexample state. -/
theorem c6_failed_upload_no_trace_witness :
    FileService.uploadFile (fun i => i == 0) ⟨⟨[], [], [], 1⟩, ⟨[], []⟩⟩
        2 [1, 2, 3] "f.bin" "m" none =
      (.error (.chunkUploadFailed 1),
       ⟨⟨[], [], [], 1⟩,
        (TelegramService.uploadFile (fun i => i == 0) ⟨[], []⟩ 2 [1, 2, 3]).2⟩) ∧
    (FileService.uploadFile (fun i => i == 0) ⟨⟨[], [], [], 1⟩, ⟨[], []⟩⟩
        2 [1, 2, 3] "f.bin" "m" none).2.remote.deleteAttempts =
      (⟨[], []⟩ : Remote).deleteAttempts :=
  c6_failed_upload_no_trace (fun i => i == 0) ⟨⟨[], [], [], 1⟩, ⟨[], []⟩⟩
    2 [1, 2, 3] "f.bin" "m" none (.chunkUploadFailed 1) (by decide)

/-- C7: a merge call whose staged-row count differs from the caller-declared
total fails with one of the incomplete-upload errors (no staged chunks, or
the count-mismatch error carrying expected and actual) and creates no File
row: the `files` table and the next file id are untouched. -/
theorem c7_merge_count_mismatch (st : SysState) (u fileName : String) (fileSize : Nat)
    (mime : String) (folderId : Option Nat) (declared : Nat)
    (h : (DatabaseService.getTempChunks st.db u).length ≠ declared) :
    ∃ e, (FileService.mergeFileChunks st u fileName fileSize mime folderId
        declared).1 = .error e ∧
      (e = .noChunks ∨
       e = .countMismatch declared (DatabaseService.getTempChunks st.db u).length) ∧
      (FileService.mergeFileChunks st u fileName fileSize mime folderId
        declared).2.db.files = st.db.files ∧
      (FileService.mergeFileChunks st u fileName fileSize mime folderId
        declared).2.db.nextFileId = st.db.nextFileId := by
  obtain ⟨e, heq, hor⟩ :=
    mergeFileChunks_mismatch st u fileName fileSize mime folderId declared h
  refine ⟨e, ?_, hor, ?_, ?_⟩
  · rw [heq]
  · rw [heq]
    exact (cleanup_preserves st u).1
  · rw [heq]
    exact (cleanup_preserves st u).2.2

/-- C7 witness: one staged chunk, declared total 2. -/
theorem c7_merge_count_mismatch_witness :
    ∃ e, (FileService.mergeFileChunks
        ⟨⟨[], [], [⟨"u", 0, 0, 5, "f", 10, none⟩], 1⟩, ⟨[[7]], []⟩⟩
        "u" "f" 10 "m" none 2).1 = .error e ∧
      (e = .noChunks ∨
       e = .countMismatch 2 (DatabaseService.getTempChunks
          (⟨⟨[], [], [⟨"u", 0, 0, 5, "f", 10, none⟩], 1⟩, ⟨[[7]], []⟩⟩ : SysState).db
          "u").length) ∧
      (FileService.mergeFileChunks
        ⟨⟨[], [], [⟨"u", 0, 0, 5, "f", 10, none⟩], 1⟩, ⟨[[7]], []⟩⟩
        "u" "f" 10 "m" none 2).2.db.files = [] ∧
      (FileService.mergeFileChunks
        ⟨⟨[], [], [⟨"u", 0, 0, 5, "f", 10, none⟩], 1⟩, ⟨[[7]], []⟩⟩
        "u" "f" 10 "m" none 2).2.db.nextFileId = 1 :=
  c7_merge_count_mismatch
    ⟨⟨[], [], [⟨"u", 0, 0, 5, "f", 10, none⟩], 1⟩, ⟨[[7]], []⟩⟩
    "u" "f" 10 "m" none 2 (by decide)

/-- C8: reassembly sorts by `chunk_index` before downloading, so for chunk
rows with pairwise-distinct indices the downloaded result is the
concatenation of the chunks in ascending index order regardless of the
order in which the rows are supplied. -/
theorem c8_download_sorts (store : List Bytes) (l lSupplied asc : List FileChunkRow)
    (_hne : l ≠ []) (hperm : lSupplied.Perm l) (hasc : asc.Perm l)
    (hnodup : l.Pairwise (fun a b => a.chunk_index ≠ b.chunk_index))
    (hsorted : List.Sorted (fun a b => a.chunk_index < b.chunk_index) asc) :
    TelegramService.downloadFile store lSupplied =
      (fetchAll store asc).map TelegramService.mergeChunks := by
  unfold TelegramService.downloadFile
  rw [sortChunks_eq_of_perm l lSupplied asc hperm hasc hnodup hsorted]

/-- C8 witness: three one-byte chunks supplied in order 1, 0, 2 download in
index order 0, 1, 2. -/
theorem c8_download_sorts_witness :
    TelegramService.downloadFile [[1], [2], [3]]
        [⟨1, 1, 1, 1⟩, ⟨1, 0, 0, 1⟩, ⟨1, 2, 2, 1⟩] =
      (fetchAll [[1], [2], [3]]
        [⟨1, 0, 0, 1⟩, ⟨1, 1, 1, 1⟩, ⟨1, 2, 2, 1⟩]).map TelegramService.mergeChunks :=
  c8_download_sorts [[1], [2], [3]]
    [⟨1, 0, 0, 1⟩, ⟨1, 1, 1, 1⟩, ⟨1, 2, 2, 1⟩]
    [⟨1, 1, 1, 1⟩, ⟨1, 0, 0, 1⟩, ⟨1, 2, 2, 1⟩]
    [⟨1, 0, 0, 1⟩, ⟨1, 1, 1, 1⟩, ⟨1, 2, 2, 1⟩]
    (by decide) (by decide) (by decide) (by decide) (by decide)

/-- C9 counterexample: with one staged chunk, the first cleanup reports
`clearedChunks = 1`; the second call succeeds as a no-op but returns a
result with no `clearedChunks` count at all (the code's early return carries
only `success` and a message), so it does not report zero cleared chunks. -/
theorem c9_counterexample :
    (FileService.cleanupFailedUpload
      ⟨⟨[], [], [⟨"u", 0, 0, 5, "f", 5, none⟩], 1⟩, ⟨[[1]], []⟩⟩ "u").1.clearedChunks =
      some 1 ∧
    (FileService.cleanupFailedUpload
      (FileService.cleanupFailedUpload
        ⟨⟨[], [], [⟨"u", 0, 0, 5, "f", 5, none⟩], 1⟩, ⟨[[1]], []⟩⟩ "u").2
      "u").1.success = true ∧
    (FileService.cleanupFailedUpload
      (FileService.cleanupFailedUpload
        ⟨⟨[], [], [⟨"u", 0, 0, 5, "f", 5, none⟩], 1⟩, ⟨[[1]], []⟩⟩ "u").2
      "u").1.clearedChunks = none ∧
    (FileService.cleanupFailedUpload
      (FileService.cleanupFailedUpload
        ⟨⟨[], [], [⟨"u", 0, 0, 5, "f", 5, none⟩], 1⟩, ⟨[[1]], []⟩⟩ "u").2
      "u").1.clearedChunks ≠ some 0 := by
  refine ⟨?_, ?_, ?_, ?_⟩ <;> decide

/-- C9 (amended): cleanup is idempotent — both calls succeed and the second
is a no-op on the state — but the second call reports no cleared-chunk
count (the `clearedChunks` field is absent, not zero). -/
theorem c9_cleanup_idempotent (st : SysState) (u : String) :
    (FileService.cleanupFailedUpload st u).1.success = true ∧
    FileService.cleanupFailedUpload (FileService.cleanupFailedUpload st u).2 u =
      (⟨true, none⟩, (FileService.cleanupFailedUpload st u).2) :=
  ⟨cleanup_success st u, cleanup_second st u⟩

/-- C10: `FileService.downloadFile` returns null (`ok none`) when no File
row exists; it errors with the missing-chunks error when the File row exists
with zero chunk rows; and when the File row exists with chunk rows whose
remote handles all resolve, it succeeds. -/
theorem c10_download_missing_file (st : SysState) (fid : Nat) :
    (DatabaseService.getFileById st.db fid = none →
      FileService.downloadFile st fid = .ok none) ∧
    (DatabaseService.getFileById st.db fid ≠ none →
      DatabaseService.getFileChunks st.db fid = [] →
      FileService.downloadFile st fid = .error .missingChunks) ∧
    (DatabaseService.getFileById st.db fid ≠ none →
      DatabaseService.getFileChunks st.db fid ≠ [] →
      (∀ row ∈ DatabaseService.getFileChunks st.db fid,
        row.telegram_file_id < st.remote.store.length) →
      ∃ res, FileService.downloadFile st fid = .ok (some res)) := by
  refine ⟨?_, ?_, ?_⟩
  · intro h
    unfold FileService.downloadFile
    rw [h]
  · intro h1 h2
    rcases hgf : DatabaseService.getFileById st.db fid with _ | f
    · exact absurd hgf h1
    · unfold FileService.downloadFile
      rw [hgf, h2]
      rfl
  · intro h1 h2 h3
    rcases hgf : DatabaseService.getFileById st.db fid with _ | f
    · exact absurd hgf h1
    obtain ⟨bs, hbs⟩ := fetchAll_isSome st.remote.store
      (sortChunks (DatabaseService.getFileChunks st.db fid))
      (by
        intro row hrow
        apply h3
        unfold sortChunks at hrow
        exact (List.mem_insertionSort
          (fun a b : FileChunkRow => a.chunk_index ≤ b.chunk_index)).mp hrow)
    refine ⟨⟨TelegramService.mergeChunks bs, f.name, f.mime_type, f.size⟩, ?_⟩
    unfold FileService.downloadFile
    rw [hgf]
    show (if (DatabaseService.getFileChunks st.db fid).isEmpty = true then
        Except.error DownloadError.missingChunks
      else
        match TelegramService.downloadFile st.remote.store
            (DatabaseService.getFileChunks st.db fid) with
        | none => Except.error DownloadError.chunkFetchFailed
        | some bytes =>
          Except.ok (some (DownloadResult.mk bytes f.name f.mime_type f.size))) =
      Except.ok (some
        (DownloadResult.mk (TelegramService.mergeChunks bs) f.name f.mime_type f.size))
    rw [if_neg (by simp only [List.isEmpty_eq_true]; exact h2)]
    unfold TelegramService.downloadFile
    rw [hbs]
    rfl

/-- C10 witness: a state with one committed file (id 1, one resolvable
chunk) — downloading absent id 5 returns null, downloading id 1 succeeds —
and a state whose file id 1 has zero chunk rows — downloading it errors. -/
theorem c10_download_missing_file_witness :
    FileService.downloadFile
      ⟨⟨[⟨1, "a", none, 1, "m"⟩], [⟨1, 0, 0, 1⟩], [], 2⟩, ⟨[[9]], []⟩⟩ 5 = .ok none ∧
    FileService.downloadFile
      ⟨⟨[⟨1, "a", none, 0, "m"⟩], [], [], 2⟩, ⟨[], []⟩⟩ 1 = .error .missingChunks ∧
    ∃ res, FileService.downloadFile
      ⟨⟨[⟨1, "a", none, 1, "m"⟩], [⟨1, 0, 0, 1⟩], [], 2⟩, ⟨[[9]], []⟩⟩ 1 =
        .ok (some res) :=
  ⟨(c10_download_missing_file
      ⟨⟨[⟨1, "a", none, 1, "m"⟩], [⟨1, 0, 0, 1⟩], [], 2⟩, ⟨[[9]], []⟩⟩ 5).1 (by decide),
   (c10_download_missing_file
      ⟨⟨[⟨1, "a", none, 0, "m"⟩], [], [], 2⟩, ⟨[], []⟩⟩ 1).2.1 (by decide) (by decide),
   (c10_download_missing_file
      ⟨⟨[⟨1, "a", none, 1, "m"⟩], [⟨1, 0, 0, 1⟩], [], 2⟩, ⟨[[9]], []⟩⟩ 1).2.2
     (by decide) (by decide) (by decide)⟩
